import Mathlib

/-!
Verification development for the twin-prime repository
(src/gemelos.py, src/optimizado.py, src/estadisticas.py).

Shallow embedding conventions:
* Python integers are `Int` (unbounded, as in Python); values known to be
  natural numbers (primes, indices) are `Nat`.
* `int(np.sqrt(n))` is idealized as the exact integer square root
  `Nat.sqrt n` (the source relies on `float64` square roots being exact on
  machine-range inputs).
* numpy float results (`np.mean`, `np.median`, window centres, densities)
  are idealized as exact rationals `ℚ`.
* Fallible code (numpy allocation / indexing errors) is embedded in
  `Except PyExc`.
-/

/-- Python exceptions that numpy operations in the sieve can raise:
`ValueError` (negative array dimension in `np.ones`) and `IndexError`
(out-of-bounds index assignment). -/
inductive PyExc
  | valueError
  | indexError
deriving DecidableEq, Repr

/-- The twin-pair scan shared verbatim by `encontrar_primos_gemelos`
(src/gemelos.py lines 240-242) and `encontrar_primos_gemelos_optimizado`
(src/optimizado.py lines 56-58): for `i` in `range(len(primos) - 1)`, emit
`(primos[i], primos[i+1])` when `primos[i+1] - primos[i] == 2`
(Python integer subtraction, modelled in `ℤ`). -/
def twin_scan : List Nat → List (Nat × Nat)
  | a :: b :: rest =>
      (if (b : Int) - (a : Int) = 2 then [(a, b)] else []) ++ twin_scan (b :: rest)
  | _ => []

namespace Gemelos

/-- `es_primo(n)` from src/gemelos.py lines 187-207: `n < 2` returns `False`;
otherwise trial division by every `i` in `range(2, int(np.sqrt(n)) + 1)`,
returning `False` on the first exact divisor. -/
def es_primo (n : Int) : Bool :=
  if n < 2 then false
  else (List.range' 2 (Nat.sqrt n.toNat + 1 - 2)).all fun i => n.toNat % i != 0

/-- `generar_primos(limite)` from src/gemelos.py lines 209-225: collect every
`n` in `range(2, limite + 1)` with `es_primo(n)`. -/
def generar_primos (limite : Int) : List Nat :=
  (List.range' 2 (limite + 1 - 2).toNat).filter fun n => es_primo n

/-- `encontrar_primos_gemelos(limite)` from src/gemelos.py lines 227-244. -/
def encontrar_primos_gemelos (limite : Int) : List (Nat × Nat) :=
  twin_scan (generar_primos limite)

end Gemelos

namespace Optimizado

/-- The sieve marker array right after initialization
(src/optimizado.py lines 25-28): `np.ones(limite + 1, dtype=bool)` with
indices 0 and 1 set to `False`.  Modelled as a total function on `ℕ`; the
code only ever reads indices `≤ limite`. -/
def criba_init : Nat → Bool := fun k => decide (2 ≤ k)

/-- The slice assignment `es_primo[i*i : limite+1 : i] = False`
(src/optimizado.py line 35): every index `k ≤ limite` of the form
`i*i + t*i` (equivalently `i ∣ k` and `i*i ≤ k`) is cleared. -/
def criba_marca (limite i : Nat) (arr : Nat → Bool) : Nat → Bool :=
  fun k => if i ∣ k ∧ i * i ≤ k ∧ k ≤ limite then false else arr k

/-- One iteration of the sieve loop body (src/optimizado.py lines 32-35):
the marking runs only when `es_primo[i]` is still set. -/
def criba_paso (limite : Nat) (arr : Nat → Bool) (i : Nat) : Nat → Bool :=
  if arr i then criba_marca limite i arr else arr

/-- The marker array after the loop
`for i in range(2, int(np.sqrt(limite)) + 1)` (src/optimizado.py line 31). -/
def criba_array (limite : Nat) : Nat → Bool :=
  (List.range' 2 (Nat.sqrt limite + 1 - 2)).foldl (criba_paso limite) criba_init

/-- `np.where(es_primo)[0]` (src/optimizado.py line 38): the indices
`≤ limite` still marked `True`, in ascending order. -/
def criba_lista (limite : Nat) : List Nat :=
  (List.range (limite + 1)).filter fun k => criba_array limite k

/-- Whether `np.ones(limite + 1, dtype=bool)` succeeds, i.e. whether the
marker array gets allocated: numpy only rejects a negative dimension. -/
def criba_asigna_array (limite : Int) : Bool := decide (0 ≤ limite + 1)

/-- `criba_eratostenes(limite)` from src/optimizado.py lines 12-38, with its
Python failure behaviour made explicit: `limite ≤ -2` makes
`np.ones(limite + 1)` raise `ValueError` (negative dimension); for
`limite ∈ {-1, 0}` the array is allocated but has size `≤ 1`, so the
assignment `es_primo[0] = es_primo[1] = False` raises `IndexError`;
for `limite ≥ 1` the sieve runs and returns its prime list. -/
def criba_eratostenes (limite : Int) : Except PyExc (List Nat) :=
  if limite + 1 < 0 then .error .valueError
  else if limite + 1 < 2 then .error .indexError
  else .ok (criba_lista limite.toNat)

/-- `encontrar_primos_gemelos_optimizado(limite)` from src/optimizado.py
lines 40-60: the twin scan over the sieve's primes; any exception raised by
`criba_eratostenes` propagates. -/
def encontrar_primos_gemelos_optimizado (limite : Int) :
    Except PyExc (List (Nat × Nat)) :=
  (criba_eratostenes limite).map twin_scan

end Optimizado

namespace Estadisticas

/-- Model of `np.mean` on a list of Python integers: the exact rational mean
(sum divided by length; numpy's float result idealized in `ℚ`). -/
def np_mean (l : List Int) : ℚ := (l.map fun d => (d : ℚ)).sum / l.length

/-- Model of `np.median` on a list of Python integers: sort ascending, take
the middle element for odd length and the average of the two middle elements
for even length. -/
def np_median (l : List Int) : ℚ :=
  let s := l.mergeSort fun a b => decide (a ≤ b)
  if l.length % 2 = 1 then ((s.getD (l.length / 2) 0 : Int) : ℚ)
  else (((s.getD (l.length / 2 - 1) 0 : Int) : ℚ) +
        ((s.getD (l.length / 2) 0 : Int) : ℚ)) / 2

/-- The radicand of `np.std` on a list of Python integers: the population
variance, `mean((x - x.mean())  ** 2)` with divisor `N = len(l)`.
`np.std(l)` itself is the (generally irrational) square root of this value;
the square root is injective on nonnegative reals, so every claim about the
divisor of the standard deviation is settled on this radicand. -/
def np_var (l : List Int) : ℚ :=
  (l.map fun d => ((d : ℚ) - np_mean l) ^ 2).sum / l.length

/-- The loop of `analizar_distancias_entre_gemelos`
(src/estadisticas.py lines 64-68): `gemelos[i+1][0] - gemelos[i][0]` for every
consecutive pair of twin pairs (Python integer subtraction, modelled in `ℤ`). -/
def distancias_consecutivas : List (Nat × Nat) → List Int
  | a :: b :: rest => ((b.1 : Int) - (a.1 : Int)) :: distancias_consecutivas (b :: rest)
  | _ => []

/-- `analizar_distancias_entre_gemelos(gemelos)` from src/estadisticas.py
lines 50-75: fewer than 2 pairs returns `([], 0, 0, 0)`; otherwise the
distance list together with its mean, median and population standard
deviation (the last returned here through its radicand `np_var`). -/
def analizar_distancias_entre_gemelos (gemelos : List (Nat × Nat)) :
    List Int × ℚ × ℚ × ℚ :=
  if gemelos.length < 2 then ([], 0, 0, 0)
  else
    let distancias := distancias_consecutivas gemelos
    (distancias, np_mean distancias, np_median distancias, np_var distancias)

/-- `np.arange(0, limite, tam)` (src/estadisticas.py line 30): the multiples
of `tam` strictly below `limite`, in ascending order. -/
def np_arange (limite tam : Nat) : List Nat :=
  (List.range ((limite + tam - 1) / tam)).map fun i => i * tam

/-- The window loop of `calcular_densidad` (src/estadisticas.py lines 34-46):
for `i` in `range(len(ventanas) - 1)`, over the half-open window
`[ventanas[i], ventanas[i+1])`, record the centre `(inicio + fin) / 2` and the
density `count / tam_ventana` where `count` is the number of first primes `p`
with `inicio <= p < fin`. -/
def densidad_ventanas (primeros : List Nat) (tam : Nat) :
    List Nat → List ℚ × List ℚ
  | a :: b :: rest =>
      let r := densidad_ventanas primeros tam (b :: rest)
      (((a : ℚ) + (b : ℚ)) / 2 :: r.1,
       ((primeros.countP fun p => decide (a ≤ p ∧ p < b)) : ℚ) / (tam : ℚ) :: r.2)
  | _ => ([], [])

/-- `calcular_densidad(gemelos, limite, tam_ventana)` from src/estadisticas.py
lines 14-48: extract the first primes, build the `np.arange` window grid and
run the window loop, returning `(centros_ventanas, densidades)`. -/
def calcular_densidad (gemelos : List (Nat × Nat)) (limite tam_ventana : Nat) :
    List ℚ × List ℚ :=
  densidad_ventanas (gemelos.map fun par => par.1) tam_ventana
    (np_arange limite tam_ventana)

/-- The window size chosen by `visualizar_analisis_completo`
(src/estadisticas.py line 131): `max(limite // 100, 10)`. -/
def tam_ventana_ajustado (limite : Nat) : Nat := max (limite / 100) 10

/-- The number of twin pairs the engine finds below a positive sub-limit:
`len(encontrar_primos_gemelos_optimizado(lim))` (src/estadisticas.py
lines 103-104), written on the sieve's pure core, which is what the engine
returns for every positive limit. -/
def cantidad_real (lim : Nat) : Nat := (twin_scan (Optimizado.criba_lista lim)).length

/-- The sub-limit grid `np.logspace(2, np.log10(limite), 20).astype(int)`
(src/estadisticas.py line 97), float64 idealized as exact reals.  The `k`-th
logspace value is `10 ^ (2 + k·(log10(limite) − 2)/19)`, which equals
`(100^(19−k) · limite^k)^(1/19)`, so its integer truncation is the greatest
`r` with `r^19 ≤ 100^(19−k) · limite^k`.  (That `r` never exceeds
`max 100 limite`, since the radicand is at most `(max 100 limite)^19`.)
The grid therefore runs from `100` (at `k = 0`) to `limite` (at `k = 19`):
increasing when `limite ≥ 100`, decreasing when `limite ≤ 100`. -/
def limites_escala (limite k : Nat) : Nat :=
  Nat.findGreatest (fun r => r ^ 19 ≤ 100 ^ (19 - k) * limite ^ k) (max 100 limite)

/-- `comparar_con_pi(limite)` from src/estadisticas.py lines 77-110: walk the
20-element logspace grid; for each sub-limit record the engine's twin-pair
count and the estimate `C * lim / np.log(lim) ** 2`, `C = 0.66`.  The values
of `np.log` at the (at most 20) integers used are irrational, so they enter
the model as the oracle `ln : ℕ → ℚ`; every theorem below holds for every
such valuation. -/
def comparar_con_pi (limite : Nat) (ln : Nat → ℚ) :
    List Nat × List Nat × List ℚ :=
  let escala := List.ofFn fun k : Fin 20 => limites_escala limite k.val
  (escala,
   escala.map fun lim => cantidad_real lim,
   escala.map fun (lim : Nat) => (66 / 100 : ℚ) * (lim : ℚ) / (ln lim) ^ 2)

/-- The empirical twin-prime-constant estimate of
`visualizar_analisis_completo` (src/estadisticas.py lines 219-223):
`C_estimada = ultimo_real * (np.log(ultimo_limite) ** 2) / ultimo_limite`,
where `ultimo_limite = limites_escala[-1]` and
`ultimo_real = cantidades_reales[-1]`. -/
def constante_estimada (limite : Nat) (ln : Nat → ℚ) : ℚ :=
  let r := comparar_con_pi limite ln
  let ultimo_limite := r.1.getLastD 0
  let ultimo_real := r.2.1.getLastD 0
  (ultimo_real : ℚ) * (ln ultimo_limite) ^ 2 / (ultimo_limite : ℚ)

/-- `np.linspace(0, limite, n)` (src/estadisticas.py line 182): `n` evenly
spaced values from `0` to `limite` inclusive, idealized as exact rationals
(`n = 1` gives `[0]`, matching numpy; `n = 0` gives `[]`). -/
def np_linspace (limite n : Nat) : List ℚ :=
  (List.range n).map fun i => (i : ℚ) * (limite : ℚ) / ((n : ℚ) - 1)

/-- The ratio loop of `visualizar_analisis_completo`
(src/estadisticas.py lines 186-199): over each adjacent pair of linspace
points, count primes and twin-pair first elements in the half-open window
`[inicio, fin)`; when the window holds at least one prime, record the centre
and the ratio `(gemelos_en_ventana * 2) / primos_en_ventana`; otherwise the
window contributes nothing. -/
def proporcion_ventanas (todos_primos : List Nat) (gemelos : List (Nat × Nat)) :
    List ℚ → List ℚ × List ℚ
  | a :: b :: rest =>
      let r := proporcion_ventanas todos_primos gemelos (b :: rest)
      let primos_en_ventana := todos_primos.countP fun p => decide (a ≤ (p : ℚ) ∧ (p : ℚ) < b)
      let gemelos_en_ventana := gemelos.countP fun g => decide (a ≤ (g.1 : ℚ) ∧ (g.1 : ℚ) < b)
      if 0 < primos_en_ventana then
        ((a + b) / 2 :: r.1,
         ((gemelos_en_ventana : ℚ) * 2) / (primos_en_ventana : ℚ) :: r.2)
      else r
  | _ => ([], [])

/-- Subplot 4 of `visualizar_analisis_completo` (src/estadisticas.py
lines 174-199): the twin-to-all-primes ratio analysis over
`np.linspace(0, limite, min(100, limite // 10))`, with
`todos_primos = criba_eratostenes(limite)` and the engine's twin pairs,
written on the sieve's pure core (the engine's value for positive limits).
Returns `(centros_ventanas, proporciones)`. -/
def proporcion_analisis (limite : Nat) : List ℚ × List ℚ :=
  proporcion_ventanas (Optimizado.criba_lista limite)
    (twin_scan (Optimizado.criba_lista limite))
    (np_linspace limite (min 100 (limite / 10)))

end Estadisticas

/-! ### Correctness of the trial-division primality test -/

/-- `es_primo` answers `true` exactly on the integers `≥ 2` that are prime. -/
lemma es_primo_iff (n : Int) :
    Gemelos.es_primo n = true ↔ 2 ≤ n ∧ Nat.Prime n.toNat := by
  unfold Gemelos.es_primo
  by_cases hn : n < 2
  · simp only [if_pos hn]
    constructor
    · intro h; exact absurd h (by simp)
    · rintro ⟨h2, -⟩; omega
  · simp only [if_neg hn]
    push_neg at hn
    have h2 : 2 ≤ n.toNat := by omega
    have hs : 1 ≤ Nat.sqrt n.toNat := Nat.sqrt_pos.mpr (by omega)
    rw [List.all_eq_true]
    constructor
    · intro h
      refine ⟨hn, Nat.prime_def_le_sqrt.mpr ⟨h2, fun m hm hms hdvd => ?_⟩⟩
      have hmem : m ∈ List.range' 2 (Nat.sqrt n.toNat + 1 - 2) :=
        List.mem_range'_1.mpr ⟨hm, by omega⟩
      have := h m hmem
      simp only [bne_iff_ne, ne_eq] at this
      exact this (Nat.dvd_iff_mod_eq_zero.mp hdvd)
    · rintro ⟨-, hp⟩ i hi
      obtain ⟨hi2, hilt⟩ := List.mem_range'_1.mp hi
      have his : i ≤ Nat.sqrt n.toNat := by omega
      have : ¬ i ∣ n.toNat := (Nat.prime_def_le_sqrt.mp hp).2 i hi2 his
      simp only [bne_iff_ne, ne_eq]
      exact fun hmod => this (Nat.dvd_iff_mod_eq_zero.mpr hmod)

/-- The naive generator produces exactly the primes up to the limit,
as a filter of the full range. -/
lemma generar_primos_eq (limite : Int) (h : 1 ≤ limite) :
    Gemelos.generar_primos limite =
      (List.range (limite.toNat + 1)).filter fun k => decide (Nat.Prime k) := by
  have hL : 1 ≤ limite.toNat := by omega
  unfold Gemelos.generar_primos
  have hlen : (limite + 1 - 2).toNat = limite.toNat - 1 := by omega
  rw [hlen]
  have hsplit : List.range (limite.toNat + 1) = 0 :: 1 :: List.range' 2 (limite.toNat - 1) := by
    rw [List.range_eq_range']
    rw [show limite.toNat + 1 = (limite.toNat - 1) + 1 + 1 by omega]
    rw [List.range'_succ, List.range'_succ]
  rw [hsplit, List.filter_cons, List.filter_cons]
  simp only [show decide (Nat.Prime 0) = false by decide,
    show decide (Nat.Prime 1) = false by decide, if_false, Bool.false_eq_true,
    reduceIte]
  refine List.filter_congr fun n hn => ?_
  obtain ⟨hn2, -⟩ := List.mem_range'_1.mp hn
  have : Gemelos.es_primo (n : Int) = true ↔ Nat.Prime n := by
    rw [es_primo_iff]
    constructor
    · rintro ⟨-, hp⟩; rwa [Int.toNat_natCast] at hp
    · intro hp; exact ⟨by exact_mod_cast hn2, by rwa [Int.toNat_natCast]⟩
  cases hcr : Gemelos.es_primo (n : Int) <;> cases hpr : decide (Nat.Prime n) <;>
    simp_all

/-! ### Correctness of the Sieve of Eratosthenes -/

/-- Invariant of the sieve loop: after processing the candidates
`2, …, j + 1`, an index `k` is still marked exactly when `k ≥ 2` and no prime
`p ≤ j + 1` with `p * p ≤ k ≤ limite` divides `k`. -/
lemma criba_fold_spec (limite : Nat) :
    ∀ j : Nat, j + 1 ≤ limite → ∀ k,
      ((List.range' 2 j).foldl (Optimizado.criba_paso limite) Optimizado.criba_init) k = true ↔
        (2 ≤ k ∧ ∀ p, Nat.Prime p → p ≤ j + 1 → p ∣ k → p * p ≤ k → limite < k) := by
  intro j
  induction j with
  | zero =>
      intro _ k
      simp only [List.range', List.foldl_nil, Optimizado.criba_init, decide_eq_true_eq]
      constructor
      · intro hk
        exact ⟨hk, fun p hp hp1 _ _ => absurd (le_trans hp.two_le hp1) (by omega)⟩
      · exact And.left
  | succ j ih =>
      intro hj k
      have hj' : j + 1 ≤ limite := by omega
      rw [show List.range' 2 (j + 1) = List.range' 2 j ++ [2 + 1 * j] from
            List.range'_concat 2 j,
          List.foldl_append, List.foldl_cons, List.foldl_nil]
      set arr := (List.range' 2 j).foldl (Optimizado.criba_paso limite) Optimizado.criba_init
        with harr
      have hidx : 2 + 1 * j = j + 2 := by omega
      rw [hidx]
      -- the loop guard `es_primo[i]` holds exactly when `j + 2` is prime
      have hguard : arr (j + 2) = true ↔ Nat.Prime (j + 2) := by
        rw [ih hj' (j + 2)]
        constructor
        · rintro ⟨-, hspec⟩
          by_contra hnp
          have hq : Nat.Prime (Nat.minFac (j + 2)) := Nat.minFac_prime (by omega)
          have hqd : Nat.minFac (j + 2) ∣ j + 2 := Nat.minFac_dvd _
          have hqsq : Nat.minFac (j + 2) * Nat.minFac (j + 2) ≤ j + 2 := by
            have := Nat.minFac_sq_le_self (n := j + 2) (by omega) hnp
            nlinarith [sq (Nat.minFac (j + 2))]
          have hqne : Nat.minFac (j + 2) ≠ j + 2 := by
            intro he
            exact hnp (Nat.prime_def_minFac.mpr ⟨by omega, he⟩)
          have hqlt : Nat.minFac (j + 2) ≤ j + 1 := by
            have := Nat.le_of_dvd (by omega) hqd
            omega
          have := hspec _ hq hqlt hqd hqsq
          omega
        · intro hp
          refine ⟨by omega, fun p hpp hple hpd _ => ?_⟩
          rcases hp.eq_one_or_self_of_dvd p hpd with h1 | h1
          · exact absurd h1 hpp.ne_one
          · omega
      by_cases hprime : Nat.Prime (j + 2)
      · rw [Optimizado.criba_paso, if_pos (hguard.mpr hprime), Optimizado.criba_marca]
        by_cases hcond : (j + 2) ∣ k ∧ (j + 2) * (j + 2) ≤ k ∧ k ≤ limite
        · rw [if_pos hcond]
          constructor
          · intro h; exact absurd h (by simp)
          · rintro ⟨-, hspec⟩
            have := hspec _ hprime le_rfl hcond.1 hcond.2.1
            omega
        · rw [if_neg hcond, ih hj' k]
          constructor
          · rintro ⟨hk2, hspec⟩
            refine ⟨hk2, fun p hpp hple hpd hpsq => ?_⟩
            rcases Nat.lt_or_ge p (j + 2) with hlt | hge
            · exact hspec p hpp (by omega) hpd hpsq
            · have hpe : p = j + 2 := by omega
              subst hpe
              by_contra hnk
              exact hcond ⟨hpd, hpsq, by omega⟩
          · rintro ⟨hk2, hspec⟩
            exact ⟨hk2, fun p hpp hple hpd hpsq => hspec p hpp (by omega) hpd hpsq⟩
      · rw [Optimizado.criba_paso,
            if_neg (by rw [hguard]; exact hprime), ih hj' k]
        constructor
        · rintro ⟨hk2, hspec⟩
          refine ⟨hk2, fun p hpp hple hpd hpsq => ?_⟩
          rcases Nat.lt_or_ge p (j + 2) with hlt | hge
          · exact hspec p hpp (by omega) hpd hpsq
          · have : p = j + 2 := by omega
            subst this
            exact absurd hpp hprime
        · rintro ⟨hk2, hspec⟩
          exact ⟨hk2, fun p hpp hple hpd hpsq => hspec p hpp (by omega) hpd hpsq⟩

/-- After the whole sweep the marker array answers exactly primality on every
in-range index. -/
lemma criba_array_iff (limite : Nat) (h : 1 ≤ limite) (k : Nat) (hk : k ≤ limite) :
    Optimizado.criba_array limite k = true ↔ Nat.Prime k := by
  have hs1 : 1 ≤ Nat.sqrt limite := Nat.sqrt_pos.mpr (by omega)
  have hlen : Nat.sqrt limite + 1 - 2 = Nat.sqrt limite - 1 := by omega
  have hj : (Nat.sqrt limite - 1) + 1 ≤ limite := by
    have := Nat.sqrt_le_self limite; omega
  unfold Optimizado.criba_array
  rw [hlen, criba_fold_spec limite (Nat.sqrt limite - 1) hj k]
  have hsq : Nat.sqrt limite - 1 + 1 = Nat.sqrt limite := by omega
  rw [hsq]
  constructor
  · rintro ⟨hk2, hspec⟩
    by_contra hnp
    have hq : Nat.Prime (Nat.minFac k) := Nat.minFac_prime (by omega)
    have hqd : Nat.minFac k ∣ k := Nat.minFac_dvd _
    have hqsq : Nat.minFac k * Nat.minFac k ≤ k := by
      have := Nat.minFac_sq_le_self (n := k) (by omega) hnp
      nlinarith [sq (Nat.minFac k)]
    have hqle : Nat.minFac k ≤ Nat.sqrt limite :=
      Nat.le_sqrt.mpr (le_trans hqsq hk)
    have := hspec _ hq hqle hqd hqsq
    omega
  · intro hp
    refine ⟨hp.two_le, fun p hpp hple hpd hpsq => ?_⟩
    rcases hp.eq_one_or_self_of_dvd p hpd with h1 | h1
    · exact absurd h1 hpp.ne_one
    · subst h1
      have h2p : 2 ≤ p := hpp.two_le
      have : 2 * p ≤ p * p := Nat.mul_le_mul_right p h2p
      omega

/-- The sieve's output is exactly the filter of the range by primality. -/
lemma criba_lista_eq (limite : Nat) (h : 1 ≤ limite) :
    Optimizado.criba_lista limite =
      (List.range (limite + 1)).filter fun k => decide (Nat.Prime k) := by
  unfold Optimizado.criba_lista
  refine List.filter_congr fun k hk => ?_
  have hk' : k ≤ limite := by
    have := List.mem_range.mp hk; omega
  have hiff := criba_array_iff limite h k hk'
  by_cases hp : Nat.Prime k
  · simp [hiff.mpr hp, hp]
  · have harr : Optimizado.criba_array limite k = false := by
      cases hcr : Optimizado.criba_array limite k
      · rfl
      · exact absurd (hiff.mp hcr) hp
    simp [harr, hp]

/-! ### The twin-pair scan -/

/-- The twin scan is the filter of the adjacent-pairs list (`l.zip l.tail`,
whose `i`-th entry is `(l[i], l[i+1])`) by the difference-2 test. -/
lemma twin_scan_eq_filter (l : List Nat) :
    twin_scan l = (l.zip l.tail).filter fun ab => decide (ab.2 = ab.1 + 2) := by
  induction l with
  | nil => rfl
  | cons a t ih =>
      cases t with
      | nil => rfl
      | cons b rest =>
          rw [twin_scan, ih]
          simp only [List.tail_cons, List.zip_cons_cons, List.filter_cons]
          have hiff : ((b : Int) - (a : Int) = 2) ↔ (b = a + 2) := by omega
          by_cases hb : b = a + 2
          · rw [if_pos (hiff.mpr hb)]
            simp [hb]
          · rw [if_neg fun hh => hb (hiff.mp hh)]
            simp [hb]

/-- Both components of an emitted twin pair occur in the input list, and they
differ by exactly 2. -/
lemma twin_scan_mem (l : List Nat) {pq : Nat × Nat} (h : pq ∈ twin_scan l) :
    pq.1 ∈ l ∧ pq.2 ∈ l ∧ pq.2 = pq.1 + 2 := by
  rw [twin_scan_eq_filter] at h
  obtain ⟨hz, hd⟩ := List.mem_filter.mp h
  have hz' : (pq.1, pq.2) ∈ l.zip l.tail := by simpa using hz
  obtain ⟨h1, h2⟩ := List.of_mem_zip hz'
  exact ⟨h1, List.tail_subset l h2, of_decide_eq_true hd⟩

/-- On a strictly increasing input, the emitted pairs are strictly increasing
in their first component. -/
lemma twin_scan_pairwise (l : List Nat) (h : l.Pairwise (· < ·)) :
    (twin_scan l).Pairwise fun x y => x.1 < y.1 := by
  induction l with
  | nil => exact List.Pairwise.nil
  | cons a t ih =>
      cases t with
      | nil => exact List.Pairwise.nil
      | cons b rest =>
          rw [List.pairwise_cons] at h
          obtain ⟨ha, hrest⟩ := h
          have ihr := ih hrest
          rw [twin_scan]
          by_cases hb : (b : Int) - (a : Int) = 2
          · rw [if_pos hb]
            simp only [List.singleton_append, List.pairwise_cons]
            exact ⟨fun y hy => ha y.1 (twin_scan_mem _ hy).1, ihr⟩
          · rw [if_neg hb]
            simpa using ihr

/-- On a strictly increasing input no twin pair is emitted twice. -/
lemma twin_scan_nodup (l : List Nat) (h : l.Pairwise (· < ·)) :
    (twin_scan l).Nodup :=
  (twin_scan_pairwise l h).imp fun hxy he => by
    rw [he] at hxy
    exact lt_irrefl _ hxy

/-! ### Claims -/

/-- C1 counterexample: at `N = 0` the two generators do not produce identical
sequences — the sieve raises `IndexError` (the marker array has size 1, so
`es_primo[1] = False` is out of bounds) while the naive generator returns the
empty list. -/
theorem c1_cex :
    Optimizado.criba_eratostenes 0 = Except.error PyExc.indexError ∧
    Gemelos.generar_primos 0 = [] :=
  ⟨rfl, rfl⟩

/-- C1 (amended): for every limit `N ≥ 1`, `criba_eratostenes(N)` and
`generar_primos(N)` produce identical ordered prime sequences, and hence
`encontrar_primos_gemelos_optimizado(N)` and `encontrar_primos_gemelos(N)`
produce identical ordered twin-pair sequences.  (At `N = 0` the sieve raises
instead of returning, so the range of the original claim is narrowed by one
point.) -/
theorem c1_sieve_matches_naive (N : Int) (h : 1 ≤ N) :
    Optimizado.criba_eratostenes N = Except.ok (Gemelos.generar_primos N) ∧
    Optimizado.encontrar_primos_gemelos_optimizado N =
      Except.ok (Gemelos.encontrar_primos_gemelos N) := by
  have h0 : ¬ (N + 1 < 0) := by omega
  have h1 : ¬ (N + 1 < 2) := by omega
  have hL : 1 ≤ N.toNat := by omega
  have hlist : Optimizado.criba_lista N.toNat = Gemelos.generar_primos N := by
    rw [criba_lista_eq N.toNat hL, generar_primos_eq N h]
  constructor
  · rw [Optimizado.criba_eratostenes, if_neg h0, if_neg h1, hlist]
  · rw [Optimizado.encontrar_primos_gemelos_optimizado, Optimizado.criba_eratostenes,
        if_neg h0, if_neg h1, hlist]
    rfl

/-- Witness for C1 at the concrete limit `N = 10`. -/
theorem c1_witness :
    (1 : Int) ≤ 10 ∧
    (Optimizado.criba_eratostenes 10 = Except.ok (Gemelos.generar_primos 10) ∧
     Optimizado.encontrar_primos_gemelos_optimizado 10 =
       Except.ok (Gemelos.encontrar_primos_gemelos 10)) :=
  ⟨by norm_num, c1_sieve_matches_naive 10 (by norm_num)⟩

/-- C2 counterexample: at `limite = 0` the marker array is allocated
(`np.ones(1)` succeeds) and only afterwards does the run fail, with an
uncaught `IndexError` — not a pre-allocation validation failure. -/
theorem c2_cex :
    Optimizado.criba_asigna_array 0 = true ∧
    Optimizado.criba_eratostenes 0 = Except.error PyExc.indexError :=
  ⟨rfl, rfl⟩

/-- C2 (amended): the sieve performs no input validation of its own.  Every
non-positive limit makes it raise an exception instead of returning —
`ValueError` from the `np.ones` allocation when `limite ≤ -2`, and
`IndexError` after a successful allocation when `limite ∈ {-1, 0}` — and every
positive limit returns normally, so invalid input remains the only failure
mode of the model. -/
theorem c2_invalid_input (limite : Int) (h : limite ≤ 0) :
    Optimizado.criba_eratostenes limite =
      Except.error (if limite ≤ -2 then PyExc.valueError else PyExc.indexError) ∧
    (-1 ≤ limite → Optimizado.criba_asigna_array limite = true) ∧
    (∀ M : Int, 1 ≤ M → Optimizado.criba_eratostenes M =
        Except.ok (Optimizado.criba_lista M.toNat)) := by
  refine ⟨?_, ?_, ?_⟩
  · by_cases h2 : limite ≤ -2
    · rw [if_pos h2, Optimizado.criba_eratostenes, if_pos (by omega)]
    · rw [if_neg h2, Optimizado.criba_eratostenes, if_neg (by omega), if_pos (by omega)]
  · intro h1
    unfold Optimizado.criba_asigna_array
    simp only [decide_eq_true_eq]
    omega
  · intro M hM
    rw [Optimizado.criba_eratostenes, if_neg (by omega), if_neg (by omega)]

/-- Witness for C2 at the concrete limit `limite = 0`. -/
theorem c2_witness :
    (0 : Int) ≤ 0 ∧
    (Optimizado.criba_eratostenes 0 =
       Except.error (if (0 : Int) ≤ -2 then PyExc.valueError else PyExc.indexError) ∧
     (-1 ≤ (0 : Int) → Optimizado.criba_asigna_array 0 = true) ∧
     (∀ M : Int, 1 ≤ M → Optimizado.criba_eratostenes M =
         Except.ok (Optimizado.criba_lista M.toNat))) :=
  ⟨le_refl 0, c2_invalid_input 0 (le_refl 0)⟩

/-- C3 counterexample: at `limite = 0` the sieve does not return the empty
sequence — it raises `IndexError`, and so does the twin-pair finder built on
it. -/
theorem c3_cex :
    Optimizado.criba_eratostenes 0 = Except.error PyExc.indexError ∧
    Optimizado.encontrar_primos_gemelos_optimizado 0 = Except.error PyExc.indexError :=
  ⟨rfl, rfl⟩

/-- C3 (amended): for `limite = 1` the sieve returns the empty prime sequence
and the twin-pair sequence is empty; for `limite = 2` it returns exactly
`[2]` (with no twin pair); but for `limite = 0` both raise `IndexError`
instead of returning empty sequences. -/
theorem c3_small_limits :
    Optimizado.criba_eratostenes 1 = Except.ok [] ∧
    Optimizado.encontrar_primos_gemelos_optimizado 1 = Except.ok [] ∧
    Optimizado.criba_eratostenes 2 = Except.ok [2] ∧
    Optimizado.encontrar_primos_gemelos_optimizado 2 = Except.ok [] ∧
    Optimizado.criba_eratostenes 0 = Except.error PyExc.indexError ∧
    Optimizado.encontrar_primos_gemelos_optimizado 0 = Except.error PyExc.indexError := by
  have h1 : Optimizado.criba_lista 1 = [] := by
    rw [criba_lista_eq 1 le_rfl]
    decide
  have h2 : Optimizado.criba_lista 2 = [2] := by
    rw [criba_lista_eq 2 (by norm_num)]
    decide
  refine ⟨?_, ?_, ?_, ?_, rfl, rfl⟩
  · show Except.ok (Optimizado.criba_lista 1) = _
    rw [h1]
  · show Except.ok (twin_scan (Optimizado.criba_lista 1)) = _
    rw [h1]
    rfl
  · show Except.ok (Optimizado.criba_lista 2) = _
    rw [h2]
  · show Except.ok (twin_scan (Optimizado.criba_lista 2)) = _
    rw [h2]
    rfl

/-- C4 (confirmed): `es_primo(n)` returns `false` for `n < 2`; for `n ≥ 2` it
returns `false` exactly when some `d` with `2 ≤ d ≤ ⌊√n⌋` divides `n`; and it
returns `true` exactly when `n` is a prime number. -/
theorem c4_es_primo_correct (n : Int) :
    (n < 2 → Gemelos.es_primo n = false) ∧
    (2 ≤ n → (Gemelos.es_primo n = false ↔
        ∃ d : Nat, 2 ≤ d ∧ d ≤ Nat.sqrt n.toNat ∧ (d : Int) ∣ n)) ∧
    (Gemelos.es_primo n = true ↔ 2 ≤ n ∧ Nat.Prime n.toNat) := by
  refine ⟨?_, ?_, es_primo_iff n⟩
  · intro h
    unfold Gemelos.es_primo
    rw [if_pos h]
  · intro h2
    have hnn : (0 : Int) ≤ n := by omega
    constructor
    · intro hf
      have hnot : ¬ (2 ≤ n ∧ Nat.Prime n.toNat) := by
        rw [← es_primo_iff n, hf]
        simp
      have hnp : ¬ Nat.Prime n.toNat := fun hp => hnot ⟨h2, hp⟩
      rw [Nat.prime_def_le_sqrt] at hnp
      push_neg at hnp
      obtain ⟨m, hm2, hms, hmdvd⟩ := hnp (by omega)
      refine ⟨m, hm2, hms, ?_⟩
      have hc := Int.natCast_dvd_natCast.mpr hmdvd
      rwa [Int.toNat_of_nonneg hnn] at hc
    · rintro ⟨d, hd2, hds, hdvd⟩
      by_contra hne
      have htrue : Gemelos.es_primo n = true := by
        cases he : Gemelos.es_primo n
        · exact absurd he hne
        · rfl
      obtain ⟨-, hp⟩ := (es_primo_iff n).mp htrue
      have hdd : d ∣ n.toNat := by
        rw [show n = ((n.toNat : Nat) : Int) from (Int.toNat_of_nonneg hnn).symm] at hdvd
        exact_mod_cast hdvd
      exact (Nat.prime_def_le_sqrt.mp hp).2 d hd2 hds hdd

/-- Witness for C4 at the concrete inputs `n = 9` (composite, divisor 3 found
below the square root) and `n = 7` (prime). -/
theorem c4_witness :
    2 ≤ (9 : Int) ∧ Gemelos.es_primo 9 = false ∧
    (Gemelos.es_primo 7 = true ↔ 2 ≤ (7 : Int) ∧ Nat.Prime (7 : Int).toNat) :=
  ⟨by norm_num,
   ((c4_es_primo_correct 9).2.1 (by norm_num)).mpr
     ⟨3, by norm_num, Nat.le_sqrt.mpr (by decide), ⟨3, by norm_num⟩⟩,
   (c4_es_primo_correct 7).2.2⟩

/-- C5 (confirmed): on every strictly increasing prime sequence the twin scan
emits precisely the adjacent pairs at distance 2 (the filter of the
adjacent-pairs list `l.zip l.tail`, whose `i`-th entry is
`(primes[i], primes[i+1])`), in the input's order, strictly increasing in the
first component and without duplicates; the triplet `3, 5, 7` yields the two
overlapping pairs `(3,5)` and `(5,7)`. -/
theorem c5_twin_extraction (l : List Nat) (h : l.Pairwise (· < ·)) :
    twin_scan l = (l.zip l.tail).filter (fun ab => decide (ab.2 = ab.1 + 2)) ∧
    (∀ p q : Nat, (p, q) ∈ twin_scan l ↔ (p, q) ∈ l.zip l.tail ∧ q = p + 2) ∧
    (twin_scan l).Pairwise (fun x y => x.1 < y.1) ∧
    (twin_scan l).Nodup ∧
    twin_scan [3, 5, 7] = [(3, 5), (5, 7)] := by
  refine ⟨twin_scan_eq_filter l, ?_, twin_scan_pairwise l h, twin_scan_nodup l h, rfl⟩
  intro p q
  rw [twin_scan_eq_filter l, List.mem_filter]
  simp

/-- The gap series has one element fewer than the pair list. -/
lemma distancias_length (g : List (Nat × Nat)) :
    (Estadisticas.distancias_consecutivas g).length = g.length - 1 := by
  induction g with
  | nil => rfl
  | cons a t ih =>
      cases t with
      | nil => rfl
      | cons b rest =>
          rw [Estadisticas.distancias_consecutivas, List.length_cons, ih]
          simp only [List.length_cons]
          omega

/-- C6 (confirmed): with fewer than 2 twin pairs the gap analysis returns the
explicit empty/zero tuple `([], 0, 0, 0)`; with at least 2 pairs it returns
the series of differences of consecutive first primes (length `#pairs - 1`)
with its mean, median and population standard deviation, where the mean and
the variance (the squared standard deviation) use divisor `N` = series
length, not `N - 1`. -/
theorem c6_gap_analysis :
    (∀ g : List (Nat × Nat), g.length < 2 →
        Estadisticas.analizar_distancias_entre_gemelos g = ([], 0, 0, 0)) ∧
    (∀ g : List (Nat × Nat), 2 ≤ g.length →
        Estadisticas.analizar_distancias_entre_gemelos g =
          (Estadisticas.distancias_consecutivas g,
           Estadisticas.np_mean (Estadisticas.distancias_consecutivas g),
           Estadisticas.np_median (Estadisticas.distancias_consecutivas g),
           Estadisticas.np_var (Estadisticas.distancias_consecutivas g)) ∧
        (Estadisticas.distancias_consecutivas g).length = g.length - 1) ∧
    (∀ l : List Int, l ≠ [] →
        Estadisticas.np_mean l * (l.length : ℚ) = (l.map fun d => (d : ℚ)).sum ∧
        Estadisticas.np_var l * (l.length : ℚ) =
          (l.map fun d => ((d : ℚ) - Estadisticas.np_mean l) ^ 2).sum) := by
  refine ⟨?_, ?_, ?_⟩
  · intro g hg
    unfold Estadisticas.analizar_distancias_entre_gemelos
    rw [if_pos hg]
  · intro g hg
    refine ⟨?_, distancias_length g⟩
    unfold Estadisticas.analizar_distancias_entre_gemelos
    rw [if_neg (by omega)]
  · intro l hl
    have hne : ((l.length : ℚ)) ≠ 0 := by
      simp only [ne_eq, Nat.cast_eq_zero, List.length_eq_zero]
      exact hl
    constructor
    · rw [Estadisticas.np_mean, div_mul_cancel₀ _ hne]
    · rw [Estadisticas.np_var, div_mul_cancel₀ _ hne]

/-- Witness for C6: the single pair `[(3,5)]` (the `limite = 4` scenario)
takes the empty/zero branch, and the two-pair list `[(3,5),(5,7)]` takes the
statistics branch. -/
theorem c6_witness :
    ([(3, 5)] : List (Nat × Nat)).length < 2 ∧
    Estadisticas.analizar_distancias_entre_gemelos [(3, 5)] = ([], 0, 0, 0) ∧
    (Estadisticas.analizar_distancias_entre_gemelos [(3, 5), (5, 7)] =
       (Estadisticas.distancias_consecutivas [(3, 5), (5, 7)],
        Estadisticas.np_mean (Estadisticas.distancias_consecutivas [(3, 5), (5, 7)]),
        Estadisticas.np_median (Estadisticas.distancias_consecutivas [(3, 5), (5, 7)]),
        Estadisticas.np_var (Estadisticas.distancias_consecutivas [(3, 5), (5, 7)])) ∧
     (Estadisticas.distancias_consecutivas [(3, 5), (5, 7)]).length =
       ([(3, 5), (5, 7)] : List (Nat × Nat)).length - 1) :=
  ⟨by decide, c6_gap_analysis.1 [(3, 5)] (by decide),
   c6_gap_analysis.2.1 [(3, 5), (5, 7)] (by decide)⟩

/-- Adjacent pairs of a mapped arithmetic ramp: zipping a mapped `range'`
with its own tail pairs `f i` with `f (i + 1)`. -/
lemma map_range'_zip_tail {α : Type} (f : Nat → α) :
    ∀ (m s : Nat),
      (((List.range' s m).map f).zip (((List.range' s m).map f).tail)) =
        (List.range' s (m - 1)).map fun i => (f i, f (i + 1)) := by
  intro m
  induction m with
  | zero => intro s; rfl
  | succ m ih =>
      intro s
      cases m with
      | zero => rfl
      | succ m' =>
          have e1 : List.range' s (m' + 2) = s :: List.range' (s + 1) (m' + 1) :=
            List.range'_succ s (m' + 1) 1
          have e2 : List.range' (s + 1) (m' + 1) = (s + 1) :: List.range' (s + 2) m' :=
            List.range'_succ (s + 1) m' 1
          have e3 : List.range' s (m' + 2 - 1) = s :: List.range' (s + 1) m' :=
            List.range'_succ s m' 1
          rw [e1, e2]
          simp only [List.map_cons, List.tail_cons, List.zip_cons_cons]
          rw [e3, List.map_cons]
          congr 1
          have hih := ih (s + 1)
          rw [e2] at hih
          simp only [List.map_cons, List.tail_cons, Nat.add_sub_cancel] at hih
          exact hih

/-- Closed form for the density window loop: one sample per adjacent pair of
grid points, with half-open counting. -/
lemma densidad_ventanas_spec (primeros : List Nat) (tam : Nat) (v : List Nat) :
    Estadisticas.densidad_ventanas primeros tam v =
      ((v.zip v.tail).map fun ab => ((ab.1 : ℚ) + (ab.2 : ℚ)) / 2,
       (v.zip v.tail).map fun ab =>
         ((primeros.countP fun p => decide (ab.1 ≤ p ∧ p < ab.2)) : ℚ) / (tam : ℚ)) := by
  induction v with
  | nil => rfl
  | cons a t ih =>
      cases t with
      | nil => rfl
      | cons b rest =>
          rw [Estadisticas.densidad_ventanas, ih]
          simp [List.zip_cons_cons]

/-- C7 counterexample: at `limite = 20` with `tam_ventana = 10` — an exact
multiple, so the partition of `[0, 20)` has the two windows `[0, 10)` and
`[10, 20)` and no partial window — the code nevertheless emits only one
sample: the final (full) window is dropped too, contradicting "dropped if and
only if limit is not an exact multiple of the window size". -/
theorem c7_cex :
    Estadisticas.calcular_densidad [(3, 5), (5, 7), (11, 13), (17, 19)] 20 10 =
      ([5], [1 / 5]) ∧
    (20 : Nat) % 10 = 0 ∧ (20 : Nat) / 10 = 2 ∧
    (Estadisticas.calcular_densidad [(3, 5), (5, 7), (11, 13), (17, 19)] 20 10).2.length
      = 1 := by
  refine ⟨?_, rfl, rfl, ?_⟩ <;>
    norm_num [Estadisticas.calcular_densidad, Estadisticas.np_arange,
      Estadisticas.densidad_ventanas, List.range_succ]

/-- C7 (amended): `calcular_densidad` lays the grid `0, tam, 2·tam, …` over
`[0, limite)` (`⌈limite / tam⌉` grid points) and emits one sample per
*adjacent grid pair*, i.e. for every window `[i·tam, (i+1)·tam)` with
`i + 1 < ⌈limite / tam⌉`: the count of pairs whose first element lies in the
half-open window, divided by the window size.  The final window of the sweep
is therefore always dropped — the partial one when `limite` is not an exact
multiple of `tam`, a full one when it is.  The default size used by the
caller `visualizar_analisis_completo` is `max(limite // 100, 10)`. -/
theorem c7_density_windows (g : List (Nat × Nat)) (limite tam : Nat) (ht : 1 ≤ tam) :
    Estadisticas.calcular_densidad g limite tam =
      ((List.range ((limite + tam - 1) / tam - 1)).map
         fun i => (((i * tam : Nat) : ℚ) + (((i + 1) * tam : Nat) : ℚ)) / 2,
       (List.range ((limite + tam - 1) / tam - 1)).map
         fun i => ((g.countP fun par =>
             decide (i * tam ≤ par.1 ∧ par.1 < (i + 1) * tam)) : ℚ) / (tam : ℚ)) ∧
    Estadisticas.tam_ventana_ajustado limite = max (limite / 100) 10 := by
  refine ⟨?_, rfl⟩
  unfold Estadisticas.calcular_densidad Estadisticas.np_arange
  rw [densidad_ventanas_spec, List.range_eq_range',
      map_range'_zip_tail (fun i => i * tam) ((limite + tam - 1) / tam) 0,
      ← List.range_eq_range', List.map_map, List.map_map]
  rw [Prod.mk.injEq]
  refine ⟨rfl, ?_⟩
  have hfun :
      ((fun ab : Nat × Nat => ((g.map fun par => par.1).countP
            (fun p => decide (ab.1 ≤ p ∧ p < ab.2)) : ℚ) / (tam : ℚ)) ∘
          fun i => (i * tam, (i + 1) * tam)) =
        fun i => ((g.countP fun par =>
            decide (i * tam ≤ par.1 ∧ par.1 < (i + 1) * tam)) : ℚ) / (tam : ℚ) := by
    funext i
    simp only [Function.comp_apply]
    rw [List.countP_map]
    rfl
  rw [hfun]

/-- Witness for C7 at the concrete call `calcular_densidad` on the twin pairs
up to 25 with window size 10. -/
theorem c7_witness :
    1 ≤ 10 ∧
    (Estadisticas.calcular_densidad [(3, 5), (5, 7), (11, 13), (17, 19)] 25 10 =
       ((List.range ((25 + 10 - 1) / 10 - 1)).map
          fun i => (((i * 10 : Nat) : ℚ) + (((i + 1) * 10 : Nat) : ℚ)) / 2,
        (List.range ((25 + 10 - 1) / 10 - 1)).map
          fun i => ((([(3, 5), (5, 7), (11, 13), (17, 19)] : List (Nat × Nat)).countP
              fun par => decide (i * 10 ≤ par.1 ∧ par.1 < (i + 1) * 10)) : ℚ) / (10 : ℚ)) ∧
     Estadisticas.tam_ventana_ajustado 25 = max (25 / 100) 10) :=
  ⟨by norm_num,
   c7_density_windows [(3, 5), (5, 7), (11, 13), (17, 19)] 25 10 (by norm_num)⟩

theorem c5_witness :
    ([3, 5, 7] : List Nat).Pairwise (· < ·) ∧
    (twin_scan [3, 5, 7] =
        (([3, 5, 7] : List Nat).zip ([3, 5, 7] : List Nat).tail).filter
          (fun ab => decide (ab.2 = ab.1 + 2)) ∧
     (∀ p q : Nat, (p, q) ∈ twin_scan [3, 5, 7] ↔
        (p, q) ∈ ([3, 5, 7] : List Nat).zip ([3, 5, 7] : List Nat).tail ∧ q = p + 2) ∧
     (twin_scan [3, 5, 7]).Pairwise (fun x y => x.1 < y.1) ∧
     (twin_scan [3, 5, 7]).Nodup ∧
     twin_scan [3, 5, 7] = [(3, 5), (5, 7)]) :=
  ⟨by decide, c5_twin_extraction [3, 5, 7] (by decide)⟩


/-- The last element of a 20-element `ofFn` list. -/
lemma getLastD_ofFn_20 {α : Type} (f : Fin 20 → α) (d : α) :
    (List.ofFn f).getLastD d = f 19 := by
  simp [List.ofFn_succ, List.getLastD_cons]
  rfl

/-- Each grid entry is the floor of the real 19th root of its radicand
`100^(19−k) · limite^k`: it brackets the radicand between consecutive 19th
powers. -/
lemma limites_escala_bracket (limite k : Nat) (hk : k ≤ 19) :
    Estadisticas.limites_escala limite k ^ 19 ≤ 100 ^ (19 - k) * limite ^ k ∧
    100 ^ (19 - k) * limite ^ k < (Estadisticas.limites_escala limite k + 1) ^ 19 := by
  have hNM : 100 ^ (19 - k) * limite ^ k ≤ (max 100 limite) ^ 19 := by
    calc 100 ^ (19 - k) * limite ^ k
        ≤ (max 100 limite) ^ (19 - k) * (max 100 limite) ^ k :=
          Nat.mul_le_mul (Nat.pow_le_pow_left (le_max_left _ _) _)
            (Nat.pow_le_pow_left (le_max_right _ _) _)
      _ = (max 100 limite) ^ (19 - k + k) := (pow_add _ _ _).symm
      _ = (max 100 limite) ^ 19 := by rw [Nat.sub_add_cancel hk]
  unfold Estadisticas.limites_escala
  constructor
  · have h0 : (0 : Nat) ^ 19 ≤ 100 ^ (19 - k) * limite ^ k := by norm_num
    exact Nat.findGreatest_spec (P := fun r => r ^ 19 ≤ 100 ^ (19 - k) * limite ^ k)
      (m := 0) (n := max 100 limite) (Nat.zero_le _) h0
  · rcases Nat.lt_or_ge
        (Nat.findGreatest (fun r => r ^ 19 ≤ 100 ^ (19 - k) * limite ^ k)
          (max 100 limite)) (max 100 limite) with hr | hr
    · have hng := Nat.findGreatest_is_greatest
        (k := Nat.findGreatest (fun r => r ^ 19 ≤ 100 ^ (19 - k) * limite ^ k)
          (max 100 limite) + 1)
        (P := fun r => r ^ 19 ≤ 100 ^ (19 - k) * limite ^ k)
        (n := max 100 limite) (by omega) (by omega)
      simp only [not_le] at hng
      exact hng
    · have heq : Nat.findGreatest (fun r => r ^ 19 ≤ 100 ^ (19 - k) * limite ^ k)
          (max 100 limite) = max 100 limite :=
        le_antisymm (Nat.findGreatest_le _) hr
      rw [heq]
      exact lt_of_le_of_lt hNM (Nat.pow_lt_pow_left (by omega) (by norm_num))

/-- The bracketing determines the grid entry uniquely. -/
lemma limites_escala_eq (limite k r : Nat) (hk : k ≤ 19)
    (h1 : r ^ 19 ≤ 100 ^ (19 - k) * limite ^ k)
    (h2 : 100 ^ (19 - k) * limite ^ k < (r + 1) ^ 19) :
    Estadisticas.limites_escala limite k = r := by
  obtain ⟨g1, g2⟩ := limites_escala_bracket limite k hk
  rcases Nat.lt_trichotomy (Estadisticas.limites_escala limite k) r with hc | hc | hc
  · have : (Estadisticas.limites_escala limite k + 1) ^ 19 ≤ r ^ 19 :=
      Nat.pow_le_pow_left (by omega) _
    omega
  · exact hc
  · have : (r + 1) ^ 19 ≤ (Estadisticas.limites_escala limite k) ^ 19 :=
      Nat.pow_le_pow_left (by omega) _
    omega

/-- The grid starts at 100 (`10^2`). -/
lemma limites_escala_zero (limite : Nat) : Estadisticas.limites_escala limite 0 = 100 :=
  limites_escala_eq limite 0 100 (by norm_num) (by simp)
    (by simpa using Nat.pow_lt_pow_left (show (100 : Nat) < 101 by norm_num)
          (show (19 : Nat) ≠ 0 by norm_num))

/-- The grid ends exactly at the target limit. -/
lemma limites_escala_last (limite : Nat) : Estadisticas.limites_escala limite 19 = limite :=
  limites_escala_eq limite 19 limite (le_refl 19) (by simp)
    (by simpa using Nat.pow_lt_pow_left (Nat.lt_succ_self limite)
          (show (19 : Nat) ≠ 0 by norm_num))

/-- Every grid entry is positive when the target limit is. -/
lemma limites_escala_pos (limite k : Nat) (h : 1 ≤ limite) :
    1 ≤ Estadisticas.limites_escala limite k := by
  have hp : 0 < 100 ^ (19 - k) * limite ^ k :=
    Nat.mul_pos (Nat.pos_pow_of_pos _ (by norm_num)) (Nat.pos_pow_of_pos _ (by omega))
  refine Nat.le_findGreatest (le_trans (by norm_num) (le_max_left 100 limite)) ?_
  show (1 : Nat) ^ 19 ≤ 100 ^ (19 - k) * limite ^ k
  rw [one_pow]
  omega

/-- The cross-multiplication identity between consecutive radicands:
`N_k · limite = N_(k+1) · 100`. -/
lemma limites_escala_radicand_rel (limite k : Nat) (hk : k + 1 ≤ 19) :
    (100 ^ (19 - k) * limite ^ k) * limite =
      (100 ^ (19 - (k + 1)) * limite ^ (k + 1)) * 100 := by
  have h19 : 19 - k = (19 - (k + 1)) + 1 := by omega
  rw [h19, pow_succ, pow_succ]
  ring

/-- For targets `≥ 100` the grid is nondecreasing step by step. -/
lemma limites_escala_succ_le (limite k : Nat) (hk : k + 1 ≤ 19) (h : 100 ≤ limite) :
    Estadisticas.limites_escala limite k ≤ Estadisticas.limites_escala limite (k + 1) := by
  obtain ⟨a1, -⟩ := limites_escala_bracket limite k (by omega)
  obtain ⟨-, b2⟩ := limites_escala_bracket limite (k + 1) hk
  have hNle : 100 ^ (19 - k) * limite ^ k ≤ 100 ^ (19 - (k + 1)) * limite ^ (k + 1) := by
    refine Nat.le_of_mul_le_mul_right ?_ (show 0 < 100 by norm_num)
    calc (100 ^ (19 - k) * limite ^ k) * 100
        ≤ (100 ^ (19 - k) * limite ^ k) * limite := Nat.mul_le_mul le_rfl h
      _ = (100 ^ (19 - (k + 1)) * limite ^ (k + 1)) * 100 :=
          limites_escala_radicand_rel limite k hk
  by_contra hc
  push_neg at hc
  have : (Estadisticas.limites_escala limite (k + 1) + 1) ^ 19 ≤
      (Estadisticas.limites_escala limite k) ^ 19 := Nat.pow_le_pow_left (by omega) _
  omega

/-- For targets `≤ 100` the grid is nonincreasing step by step. -/
lemma limites_escala_succ_ge (limite k : Nat) (hk : k + 1 ≤ 19) (h : limite ≤ 100) :
    Estadisticas.limites_escala limite (k + 1) ≤ Estadisticas.limites_escala limite k := by
  obtain ⟨-, a2⟩ := limites_escala_bracket limite k (by omega)
  obtain ⟨b1, -⟩ := limites_escala_bracket limite (k + 1) hk
  have hNge : 100 ^ (19 - (k + 1)) * limite ^ (k + 1) ≤ 100 ^ (19 - k) * limite ^ k := by
    refine Nat.le_of_mul_le_mul_right ?_ (show 0 < 100 by norm_num)
    calc (100 ^ (19 - (k + 1)) * limite ^ (k + 1)) * 100
        = (100 ^ (19 - k) * limite ^ k) * limite :=
          (limites_escala_radicand_rel limite k hk).symm
      _ ≤ (100 ^ (19 - k) * limite ^ k) * 100 := Nat.mul_le_mul le_rfl h
  by_contra hc
  push_neg at hc
  have : (Estadisticas.limites_escala limite k + 1) ^ 19 ≤
      (Estadisticas.limites_escala limite (k + 1)) ^ 19 := Nat.pow_le_pow_left (by omega) _
  omega

/-- For targets `≥ 100` the grid is monotone, so its last entry is its
largest. -/
lemma limites_escala_mono (limite : Nat) (h : 100 ≤ limite) :
    ∀ l, l ≤ 19 → ∀ k, k ≤ l →
      Estadisticas.limites_escala limite k ≤ Estadisticas.limites_escala limite l := by
  intro l
  induction l with
  | zero =>
      intro _ k hk
      have : k = 0 := by omega
      subst this
      exact le_rfl
  | succ l ih =>
      intro hl k hk
      rcases Nat.lt_or_ge k (l + 1) with hlt | hge
      · exact le_trans (ih (by omega) k (by omega)) (limites_escala_succ_le limite l hl h)
      · have hkeq : k = l + 1 := by omega
        subst hkeq
        exact le_rfl

/-- For targets `≤ 100` the grid is antitone, so its last entry is its
smallest. -/
lemma limites_escala_anti (limite : Nat) (h : limite ≤ 100) :
    ∀ l, l ≤ 19 → ∀ k, k ≤ l →
      Estadisticas.limites_escala limite l ≤ Estadisticas.limites_escala limite k := by
  intro l
  induction l with
  | zero =>
      intro _ k hk
      have : k = 0 := by omega
      subst this
      exact le_rfl
  | succ l ih =>
      intro hl k hk
      rcases Nat.lt_or_ge k (l + 1) with hlt | hge
      · exact le_trans (limites_escala_succ_ge limite l hl h) (ih (by omega) k (by omega))
      · have hkeq : k = l + 1 := by omega
        subst hkeq
        exact le_rfl

/-- C8 counterexample: for the reachable target `limite = 10` (the callers
only require a positive limit) the logspace grid decreases from 100 down
to 10, so the last sub-limit — the one the code uses to derive the empirical
constant — is the *smallest* sub-limit, not the largest.  Under the oracle
valuation `ln ≡ 1` the code computes `C_est = count(10)·1²/10 = 1/5`, while
the value at the largest sub-limit 100 is `count(100)·1²/100 = 2/25`, and the
two differ. -/
theorem c8_cex :
    (Estadisticas.comparar_con_pi 10 (fun _ => 1)).1 =
      [100, 88, 78, 69, 61, 54, 48, 42, 37, 33, 29, 26, 23, 20, 18, 16, 14, 12, 11, 10] ∧
    Estadisticas.constante_estimada 10 (fun _ => 1) =
      (Estadisticas.cantidad_real 10 : ℚ) * (1 : ℚ) ^ 2 / ((10 : Nat) : ℚ) ∧
    Estadisticas.constante_estimada 10 (fun _ => 1) = 1 / 5 ∧
    (Estadisticas.cantidad_real 100 : ℚ) * (1 : ℚ) ^ 2 / ((100 : Nat) : ℚ) = 2 / 25 ∧
    Estadisticas.constante_estimada 10 (fun _ => 1) ≠
      (Estadisticas.cantidad_real 100 : ℚ) * (1 : ℚ) ^ 2 / ((100 : Nat) : ℚ) := by
  have hc10 : Estadisticas.cantidad_real 10 = 2 := by
    unfold Estadisticas.cantidad_real
    rw [criba_lista_eq 10 (by norm_num)]
    decide
  have hc100 : Estadisticas.cantidad_real 100 = 8 := by
    unfold Estadisticas.cantidad_real
    rw [criba_lista_eq 100 (by norm_num)]
    decide
  have hlast1 : (Estadisticas.comparar_con_pi 10 (fun _ => 1)).1.getLastD 0 = 10 := by
    have h0 : (Estadisticas.comparar_con_pi 10 (fun _ => 1)).1 =
        List.ofFn fun k : Fin 20 => Estadisticas.limites_escala 10 k.val := rfl
    rw [h0, getLastD_ofFn_20]
    exact limites_escala_last 10
  have hlast2 : (Estadisticas.comparar_con_pi 10 (fun _ => 1)).2.1.getLastD 0 =
      Estadisticas.cantidad_real 10 := by
    have h0 : (Estadisticas.comparar_con_pi 10 (fun _ => 1)).2.1 =
        (List.ofFn fun k : Fin 20 => Estadisticas.limites_escala 10 k.val).map
          (fun lim => Estadisticas.cantidad_real lim) := rfl
    rw [h0, List.map_ofFn, getLastD_ofFn_20]
    simp only [Function.comp_apply]
    rw [show ((19 : Fin 20) : Nat) = 19 from rfl, limites_escala_last 10]
  have hconst : Estadisticas.constante_estimada 10 (fun _ => 1) =
      (Estadisticas.cantidad_real 10 : ℚ) * (1 : ℚ) ^ 2 / ((10 : Nat) : ℚ) := by
    show ((Estadisticas.comparar_con_pi 10 (fun _ => 1)).2.1.getLastD 0 : ℚ) *
        (1 : ℚ) ^ 2 / (((Estadisticas.comparar_con_pi 10 (fun _ => 1)).1.getLastD 0 : Nat) : ℚ) = _
    rw [hlast1, hlast2]
  refine ⟨?_, hconst, ?_, ?_, ?_⟩
  · decide
  · rw [hconst, hc10]
    norm_num
  · rw [hc100]
    norm_num
  · rw [hconst, hc10, hc100]
    norm_num

/-- C8 (amended): `comparar_con_pi` produces exactly 20 geometrically
(logarithmically) spaced integer sub-limits running from 100 to the target
limit: the `k`-th is the integer part of `(100^(19−k) · limite^k)^(1/19)`
(the float64 logspace idealized as exact reals), so the grid is nondecreasing
for targets `≥ 100` and nonincreasing for targets `≤ 100`.  For each
sub-limit `L` it records the real twin-pair count obtained by re-running the
full engine at `L` alongside the estimate `0.66·L/(ln L)²`, and the empirical
constant is derived at the *last* sub-limit — which is exactly the target
limit itself: the largest sub-limit when `limite ≥ 100`, but the smallest
when `limite < 100` — as `C_est = realCount·(ln limite)²/limite`. -/
theorem c8_comparison (limite : Nat) (ln : Nat → ℚ) (h : 1 ≤ limite) :
    (Estadisticas.comparar_con_pi limite ln).1.length = 20 ∧
    (Estadisticas.comparar_con_pi limite ln).2.1.length = 20 ∧
    (Estadisticas.comparar_con_pi limite ln).2.2.length = 20 ∧
    (Estadisticas.comparar_con_pi limite ln).1 =
      List.ofFn (fun k : Fin 20 => Estadisticas.limites_escala limite k.val) ∧
    (∀ k : Fin 20,
        Estadisticas.limites_escala limite k.val ^ 19 ≤
          100 ^ (19 - k.val) * limite ^ k.val ∧
        100 ^ (19 - k.val) * limite ^ k.val <
          (Estadisticas.limites_escala limite k.val + 1) ^ 19) ∧
    Estadisticas.limites_escala limite 0 = 100 ∧
    Estadisticas.limites_escala limite 19 = limite ∧
    (100 ≤ limite → ∀ k l : Fin 20, k ≤ l →
        Estadisticas.limites_escala limite k.val ≤
          Estadisticas.limites_escala limite l.val) ∧
    (limite ≤ 100 → ∀ k l : Fin 20, k ≤ l →
        Estadisticas.limites_escala limite l.val ≤
          Estadisticas.limites_escala limite k.val) ∧
    (∀ k : Fin 20,
        Optimizado.encontrar_primos_gemelos_optimizado
            (Estadisticas.limites_escala limite k.val) =
          Except.ok (twin_scan
            (Optimizado.criba_lista (Estadisticas.limites_escala limite k.val)))) ∧
    (Estadisticas.comparar_con_pi limite ln).2.1 =
      List.ofFn (fun k : Fin 20 =>
        Estadisticas.cantidad_real (Estadisticas.limites_escala limite k.val)) ∧
    (Estadisticas.comparar_con_pi limite ln).2.2 =
      List.ofFn (fun k : Fin 20 =>
        (66 / 100 : ℚ) * (Estadisticas.limites_escala limite k.val : ℚ) /
          (ln (Estadisticas.limites_escala limite k.val)) ^ 2) ∧
    Estadisticas.constante_estimada limite ln =
      (Estadisticas.cantidad_real limite : ℚ) * (ln limite) ^ 2 / (limite : ℚ) := by
  have hmap1 : (Estadisticas.comparar_con_pi limite ln).2.1 =
      List.ofFn (fun k : Fin 20 =>
        Estadisticas.cantidad_real (Estadisticas.limites_escala limite k.val)) := by
    have h0 : (Estadisticas.comparar_con_pi limite ln).2.1 =
        (List.ofFn fun k : Fin 20 => Estadisticas.limites_escala limite k.val).map
          (fun lim => Estadisticas.cantidad_real lim) := rfl
    rw [h0, List.map_ofFn]
    rfl
  have hmap2 : (Estadisticas.comparar_con_pi limite ln).2.2 =
      List.ofFn (fun k : Fin 20 =>
        (66 / 100 : ℚ) * (Estadisticas.limites_escala limite k.val : ℚ) /
          (ln (Estadisticas.limites_escala limite k.val)) ^ 2) := by
    have h0 : (Estadisticas.comparar_con_pi limite ln).2.2 =
        (List.ofFn fun k : Fin 20 => Estadisticas.limites_escala limite k.val).map
          (fun (lim : Nat) => (66 / 100 : ℚ) * (lim : ℚ) / (ln lim) ^ 2) := rfl
    rw [h0, List.map_ofFn]
    rfl
  have hlen1 : (Estadisticas.comparar_con_pi limite ln).1.length = 20 := by
    have h0 : (Estadisticas.comparar_con_pi limite ln).1 =
        List.ofFn fun k : Fin 20 => Estadisticas.limites_escala limite k.val := rfl
    rw [h0]
    exact List.length_ofFn _
  refine ⟨hlen1, ?_, ?_, rfl, ?_, limites_escala_zero limite,
    limites_escala_last limite, ?_, ?_, ?_, hmap1, hmap2, ?_⟩
  · rw [hmap1]
    exact List.length_ofFn _
  · rw [hmap2]
    exact List.length_ofFn _
  · intro k
    exact limites_escala_bracket limite k.val (by omega)
  · intro h100 k l hkl
    exact limites_escala_mono limite h100 l.val (by omega) k.val hkl
  · intro h100 k l hkl
    exact limites_escala_anti limite h100 l.val (by omega) k.val hkl
  · intro k
    have hpos := limites_escala_pos limite k.val h
    show (Optimizado.criba_eratostenes _).map twin_scan = _
    rw [Optimizado.criba_eratostenes, if_neg (by omega), if_neg (by omega),
        show ((Estadisticas.limites_escala limite k.val : Nat) : Int).toNat =
          Estadisticas.limites_escala limite k.val from Int.toNat_natCast _]
    rfl
  · have hlast1 : (Estadisticas.comparar_con_pi limite ln).1.getLastD 0 = limite := by
      have h0 : (Estadisticas.comparar_con_pi limite ln).1 =
          List.ofFn fun k : Fin 20 => Estadisticas.limites_escala limite k.val := rfl
      rw [h0, getLastD_ofFn_20]
      exact limites_escala_last limite
    have hlast2 : (Estadisticas.comparar_con_pi limite ln).2.1.getLastD 0 =
        Estadisticas.cantidad_real limite := by
      rw [hmap1, getLastD_ofFn_20]
      rw [show ((19 : Fin 20) : Nat) = 19 from rfl, limites_escala_last limite]
    show ((Estadisticas.comparar_con_pi limite ln).2.1.getLastD 0 : ℚ) *
        (ln ((Estadisticas.comparar_con_pi limite ln).1.getLastD 0)) ^ 2 /
        (((Estadisticas.comparar_con_pi limite ln).1.getLastD 0 : Nat) : ℚ) = _
    rw [hlast1, hlast2]

/-- Witness for C8 at the concrete target `limite = 100` with the oracle
`ln ≡ 1`. -/
theorem c8_witness :
    (1 : Nat) ≤ 100 ∧
    (Estadisticas.comparar_con_pi 100 (fun _ => 1)).1.length = 20 ∧
    Estadisticas.limites_escala 100 0 = 100 ∧
    Estadisticas.limites_escala 100 19 = 100 ∧
    Estadisticas.constante_estimada 100 (fun _ => 1) =
      (Estadisticas.cantidad_real 100 : ℚ) * ((1 : ℚ)) ^ 2 / ((100 : Nat) : ℚ) := by
  refine ⟨by norm_num, ?_, ?_, ?_, ?_⟩
  · exact (c8_comparison 100 (fun _ => 1) (by norm_num)).1
  · exact (c8_comparison 100 (fun _ => 1) (by norm_num)).2.2.2.2.2.1
  · exact (c8_comparison 100 (fun _ => 1) (by norm_num)).2.2.2.2.2.2.1
  · exact (c8_comparison 100 (fun _ => 1) (by norm_num)).2.2.2.2.2.2.2.2.2.2.2.2

/-- Closed form for the ratio window loop: a `filterMap` over adjacent grid
pairs, recording `(pairs · 2) / primes` exactly on the windows holding at
least one prime and skipping the others entirely. -/
lemma proporcion_ventanas_spec (primos : List Nat) (gemelos : List (Nat × Nat))
    (v : List ℚ) :
    Estadisticas.proporcion_ventanas primos gemelos v =
      ((v.zip v.tail).filterMap fun ab =>
         if 0 < primos.countP fun p => decide (ab.1 ≤ (p : ℚ) ∧ (p : ℚ) < ab.2) then
           some ((ab.1 + ab.2) / 2)
         else none,
       (v.zip v.tail).filterMap fun ab =>
         if 0 < primos.countP fun p => decide (ab.1 ≤ (p : ℚ) ∧ (p : ℚ) < ab.2) then
           some (((gemelos.countP fun gg =>
                 decide (ab.1 ≤ (gg.1 : ℚ) ∧ (gg.1 : ℚ) < ab.2)) : ℚ) * 2 /
               ((primos.countP fun p => decide (ab.1 ≤ (p : ℚ) ∧ (p : ℚ) < ab.2)) : ℚ))
         else none) := by
  induction v with
  | nil => rfl
  | cons a t ih =>
      cases t with
      | nil => rfl
      | cons b rest =>
          rw [Estadisticas.proporcion_ventanas, ih]
          simp only [List.tail_cons, List.zip_cons_cons, List.filterMap_cons]
          by_cases hc : 0 < primos.countP fun p => decide (a ≤ (p : ℚ) ∧ (p : ℚ) < b)
          · simp only [if_pos hc]
          · simp only [if_neg hc]

/-- C9 (confirmed): the twin-to-all-primes ratio analysis runs over the
adjacent pairs of the `np.linspace(0, limite, min(100, limite // 10))` grid;
on every window `[inicio, fin)` holding at least one prime — membership
half-open for primes and for pair first elements alike — it records
`(pairsInWindow · 2) / primesInWindow`, and every window with zero primes
contributes no sample at all. -/
theorem c9_ratio_windows (limite : Nat) :
    Estadisticas.proporcion_analisis limite =
      (((Estadisticas.np_linspace limite (min 100 (limite / 10))).zip
          (Estadisticas.np_linspace limite (min 100 (limite / 10))).tail).filterMap
         fun ab =>
           if 0 < (Optimizado.criba_lista limite).countP
                 fun p => decide (ab.1 ≤ (p : ℚ) ∧ (p : ℚ) < ab.2) then
             some ((ab.1 + ab.2) / 2)
           else none,
       ((Estadisticas.np_linspace limite (min 100 (limite / 10))).zip
          (Estadisticas.np_linspace limite (min 100 (limite / 10))).tail).filterMap
         fun ab =>
           if 0 < (Optimizado.criba_lista limite).countP
                 fun p => decide (ab.1 ≤ (p : ℚ) ∧ (p : ℚ) < ab.2) then
             some ((((twin_scan (Optimizado.criba_lista limite)).countP fun gg =>
                   decide (ab.1 ≤ (gg.1 : ℚ) ∧ (gg.1 : ℚ) < ab.2)) : ℚ) * 2 /
                 (((Optimizado.criba_lista limite).countP
                     fun p => decide (ab.1 ≤ (p : ℚ) ∧ (p : ℚ) < ab.2)) : ℚ))
           else none) :=
  proporcion_ventanas_spec _ _ _

/-- The sieve output is strictly increasing (a filter of an increasing
range). -/
lemma criba_lista_sorted (limite : Nat) :
    (Optimizado.criba_lista limite).Pairwise (· < ·) :=
  (List.pairwise_lt_range _).filter _

/-- Every element of the sieve output is prime. -/
lemma criba_lista_prime (limite : Nat) (h : 1 ≤ limite) :
    ∀ k ∈ Optimizado.criba_lista limite, Nat.Prime k := by
  intro k hk
  rw [criba_lista_eq limite h, List.mem_filter] at hk
  exact of_decide_eq_true hk.2

/-- The first element of every twin pair found by the sieve pipeline is odd:
it is prime, and it cannot be 2 because then its partner 4 would be prime. -/
lemma twin_firsts_odd (limite : Nat) (h : 1 ≤ limite) :
    ∀ x ∈ twin_scan (Optimizado.criba_lista limite), Odd x.1 := by
  intro x hx
  obtain ⟨h1, h2, h3⟩ := twin_scan_mem _ hx
  have hp1 : Nat.Prime x.1 := criba_lista_prime limite h _ h1
  have hp2 : Nat.Prime x.2 := criba_lista_prime limite h _ h2
  refine hp1.odd_of_ne_two ?_
  intro he
  have h4 : x.2 = 4 := by omega
  rw [h4] at hp2
  exact absurd hp2 (by norm_num)

/-- Gaps between consecutive pairs with odd, strictly increasing first
elements are even and at least 2. -/
lemma distancias_even_ge_two (g : List (Nat × Nat))
    (hc : g.Chain' (fun x y => x.1 < y.1)) (ho : ∀ x ∈ g, Odd x.1) :
    ∀ d ∈ Estadisticas.distancias_consecutivas g, 2 ≤ d ∧ 2 ∣ d := by
  induction g with
  | nil => intro d hd; exact absurd hd (by simp [Estadisticas.distancias_consecutivas])
  | cons a t ih =>
      cases t with
      | nil => intro d hd; exact absurd hd (by simp [Estadisticas.distancias_consecutivas])
      | cons b rest =>
          rw [List.chain'_cons] at hc
          obtain ⟨hab, hrest⟩ := hc
          intro d hd
          rw [Estadisticas.distancias_consecutivas, List.mem_cons] at hd
          rcases hd with he | hm
          · subst he
            have hoa : Odd a.1 := ho a (by simp)
            have hob : Odd b.1 := ho b (by simp)
            have heven : Even ((b.1 : Int) - (a.1 : Int)) :=
              ((Int.odd_coe_nat b.1).mpr hob).sub_odd ((Int.odd_coe_nat a.1).mpr hoa)
            obtain ⟨t2, ht2⟩ := heven
            exact ⟨by omega, ⟨t2, by omega⟩⟩
          · exact ih hrest (fun x hx => ho x (List.mem_cons_of_mem a hx)) d hm

/-- C10 (confirmed): whenever the engine returns a twin-pair list, every
element of the consecutive-pair distance series computed by
`analizar_distancias_entre_gemelos` over it is an even integer `≥ 2`
(consecutive twin-pair first primes are all odd and strictly increasing). -/
theorem c10_gap_parity (limite : Int) (g : List (Nat × Nat))
    (h : Optimizado.encontrar_primos_gemelos_optimizado limite = Except.ok g) :
    ∀ d ∈ (Estadisticas.analizar_distancias_entre_gemelos g).1, 2 ≤ d ∧ 2 ∣ d := by
  unfold Optimizado.encontrar_primos_gemelos_optimizado at h
  by_cases h0 : limite + 1 < 0
  · rw [Optimizado.criba_eratostenes, if_pos h0] at h
    exact absurd h (by simp [Except.map])
  by_cases h1 : limite + 1 < 2
  · rw [Optimizado.criba_eratostenes, if_neg h0, if_pos h1] at h
    exact absurd h (by simp [Except.map])
  rw [Optimizado.criba_eratostenes, if_neg h0, if_neg h1] at h
  have hg : g = twin_scan (Optimizado.criba_lista limite.toNat) := by
    have := h.symm
    simpa [Except.map] using this
  subst hg
  have hL : 1 ≤ limite.toNat := by omega
  intro d hd
  unfold Estadisticas.analizar_distancias_entre_gemelos at hd
  by_cases hlen : (twin_scan (Optimizado.criba_lista limite.toNat)).length < 2
  · rw [if_pos hlen] at hd
    exact absurd hd (by simp)
  · rw [if_neg hlen] at hd
    exact distancias_even_ge_two _
      ((twin_scan_pairwise _ (criba_lista_sorted _)).chain')
      (twin_firsts_odd _ hL) d hd

/-- Witness for C10: the engine at limit 20 yields the distance series
`[2, 6, 6]`, whose element 2 is even and `≥ 2`. -/
theorem c10_witness : (2 : Int) ≤ 2 ∧ (2 : Int) ∣ 2 := by
  have hlista : Optimizado.criba_lista 20 = [2, 3, 5, 7, 11, 13, 17, 19] := by
    rw [criba_lista_eq 20 (by norm_num)]
    decide
  have h20 : Optimizado.encontrar_primos_gemelos_optimizado 20 =
      Except.ok [(3, 5), (5, 7), (11, 13), (17, 19)] := by
    show Except.ok (twin_scan (Optimizado.criba_lista 20)) = _
    rw [hlista]
    rfl
  exact c10_gap_parity 20 [(3, 5), (5, 7), (11, 13), (17, 19)] h20 2 (by decide)
